import Mathlib

/-!
Verification of the abitech NCS music selection and caching layer.

The definitions below are a shallow embedding of the JavaScript/TypeScript
source: `utils/ncs.js` (selection engine: getRandomSong,
getMultipleRandomSongs, searchInSongs, validateSongUrls, fetchTrendingSongs),
`server/storage.ts` (MemStorage cache) and `server/routes.ts` (GET /random
handler).  JS truthiness of optional string fields is modelled by `truthy`
over `Option String`; `Math.random()` draws are passed in explicitly as
rationals in [0,1); machine numbers are modelled by `Nat`/`Int`/`Rat`.
-/

namespace Abitech

/-- JS truthiness of a possibly-absent string: `undefined`/`null` and the
empty string are falsy, every other string is truthy. -/
def truthy : Option String → Bool
  | none => false
  | some s => s != ""

/-- The JS expression `a || b` on possibly-absent strings: yields `a` when
`a` is truthy, otherwise `b`. -/
def jsOr (a b : Option String) : Option String :=
  if truthy a then a else b

/-- An artist object from the NCS API: `{ name }`. -/
structure Artist where
  name : String
deriving DecidableEq, Repr

/-- The `download` property of a raw song object.  In the NCS API it is an
object `{ regular }`; some code paths also treat it as a plain URL string,
and it may be absent.  An object is truthy in JS regardless of its
contents. -/
inductive DlField where
  | missing : DlField
  | plain : String → DlField
  | obj : Option String → DlField
deriving DecidableEq, Repr

/-- The JS expression `download?.regular`: only an object carries a
`regular` field. -/
def dlRegular : DlField → Option String
  | DlField.obj r => r
  | _ => none

/-- JS truthiness of the `download` property itself: objects are always
truthy, strings are truthy when non-empty. -/
def dlTruthy : DlField → Bool
  | DlField.missing => false
  | DlField.plain s => s != ""
  | DlField.obj _ => true

/-- Whether the `download` property is an object. -/
def dlIsObj : DlField → Bool
  | DlField.obj _ => true
  | _ => false

/-- A raw song record as handled by `utils/ncs.js`: every field the code
reads is optional (JS duck typing).  Absent fields default to `none`. -/
structure Track where
  name : Option String := none
  title : Option String := none
  artists : Option (List Artist) := none
  artist : Option String := none
  genre : Option String := none
  mood : Option String := none
  previewUrl : Option String := none
  streamUrl : Option String := none
  stream : Option String := none
  url : Option String := none
  stream_url : Option String := none
  download_url : Option String := none
  downloadUrl : Option String := none
  download : DlField := DlField.missing
  coverUrl : Option String := none
deriving DecidableEq, Repr

instance : Inhabited Track := ⟨{}⟩

/-- The JS expression `Math.floor(r2 * len)`, the index drawn from a uniform value
`r2 ∈ [0,1)` over a slice of length `len`. -/
def uniformIndex (r2 : ℚ) (len : Nat) : Nat :=
  (Int.floor (r2 * (len : ℚ))).toNat

/-- Body of `getRandomSong` from `utils/ncs.js` after the empty-pool check.
`r` is the branch draw (`const random = Math.random()`), `r2` the index
draw.  `songs.slice(0, k)` is `List.take k`. -/
def getRandomSongPick (songs : List Track) (r r2 : ℚ) : Track :=
  let totalSongs := songs.length
  let topTrendingCount := Nat.ceil ((totalSongs : ℚ) * 0.6)
  if r < 0.7 then
    let topSongs := songs.take topTrendingCount
    topSongs.getD (uniformIndex r2 topSongs.length) default
  else if r < 0.9 then
    let popularCount := Nat.ceil ((totalSongs : ℚ) * 0.8)
    let popularSongs := songs.take popularCount
    popularSongs.getD (uniformIndex r2 popularSongs.length) default
  else
    songs.getD (uniformIndex r2 totalSongs) default

/-- Selection-engine failure: `getRandomSong` throws
"No songs available for random selection" on an empty pool. -/
inductive SelErr where
  | emptyPool
deriving DecidableEq, Repr

/-- The function `getRandomSong(songs)` from `utils/ncs.js`: throws on an empty or
absent array, otherwise performs the weighted pick. -/
def getRandomSong (songs : List Track) (r r2 : ℚ) : Except SelErr Track :=
  if songs.length = 0 then Except.error SelErr.emptyPool
  else Except.ok (getRandomSongPick songs r r2)

/-- One slot of `getMultipleRandomSongs`: the `do { ... } while
(selectedSongs.some(s => s.name === selectedSong.name) && attempts < 10)`
loop.  `fuel` is the number of attempts still allowed (10 at entry); the
pick of the final allowed attempt is kept even if it duplicates a name.
Returns the picked track and the next unread position of the random
stream (each pick consumes two draws). -/
def pickWithRetry (songs selected : List Track) (rand : Nat → ℚ) :
    Nat → Nat → Track × Nat
  | idx, 0 => (getRandomSongPick songs (rand idx) (rand (idx + 1)), idx + 2)
  | idx, fuel + 1 =>
    let t := getRandomSongPick songs (rand idx) (rand (idx + 1))
    if (selected.any fun s => s.name == t.name) && fuel != 0 then
      pickWithRetry songs selected rand (idx + 2) fuel
    else (t, idx + 2)

/-- The `for (let i = 0; i < maxCount; i++)` loop of
`getMultipleRandomSongs`: fills `k` slots, threading the random stream
position. -/
def selectLoop (songs : List Track) (rand : Nat → ℚ) :
    Nat → Nat → List Track → List Track
  | _, 0, selected => selected
  | idx, k + 1, selected =>
    let p := pickWithRetry songs selected rand idx 10
    selectLoop songs rand p.2 k (selected ++ [p.1])

/-- The function `getMultipleRandomSongs(songs, count)` from `utils/ncs.js`: throws on
an empty pool, otherwise picks `Math.min(count, 10, songs.length)`
songs, retrying each slot up to 10 times to avoid duplicate names. -/
def getMultipleRandomSongs (songs : List Track) (count : Nat) (rand : Nat → ℚ) :
    Except SelErr (List Track) :=
  if songs.length = 0 then Except.error SelErr.emptyPool
  else Except.ok (selectLoop songs rand 0 (min count (min 10 songs.length)) [])

/-- Lowercase a string character by character (`String.toLowerCase`). -/
def toLowerStr (s : String) : String := ⟨s.data.map Char.toLower⟩

/-- Whether `pat` is a leading block of `l` (helper for substring
containment). -/
def leadsWith : List Char → List Char → Bool
  | _, [] => true
  | [], _ :: _ => false
  | c :: cs, p :: ps => c == p && leadsWith cs ps

/-- Whether `pat` occurs contiguously inside `l`. -/
def containsSub : List Char → List Char → Bool
  | [], pat => pat.isEmpty
  | c :: cs, pat => leadsWith (c :: cs) pat || containsSub cs pat

/-- JS `hay.includes(needle)`. -/
def includes (hay needle : String) : Bool :=
  containsSub hay.data needle.data

/-- Text the filter of `searchInSongs` matches the title against:
`(song.name || song.title || '')`. -/
def titleText (song : Track) : String :=
  (jsOr song.name song.title).getD ""

/-- Text the filter of `searchInSongs` matches the artist against:
the artist names joined with a space when `song.artists` is an array,
otherwise `(song.artist || '')`. -/
def artistText (song : Track) : String :=
  match song.artists with
  | some l => String.intercalate " " (l.map Artist.name)
  | none => song.artist.getD ""

/-- Text the filter of `searchInSongs` matches the genre against:
`(song.genre || '')`. -/
def genreText (song : Track) : String :=
  song.genre.getD ""

/-- The predicate of the `songs.filter(...)` call in `searchInSongs`:
lowercased title, artist and genre texts each checked for the lowercased
search term as a substring. -/
def songMatches (searchTerm : String) (song : Track) : Bool :=
  includes (toLowerStr (titleText song)) searchTerm ||
  includes (toLowerStr (artistText song)) searchTerm ||
  includes (toLowerStr (genreText song)) searchTerm

/-- The function `searchInSongs(songs, query)` from `utils/ncs.js`: returns `[]` when
the query is falsy (empty string) or the list is empty or absent,
otherwise filters by case-insensitive substring match. -/
def searchInSongs (songs : List Track) (query : String) : List Track :=
  if query = "" ∨ songs = [] then []
  else
    let searchTerm := toLowerStr query
    songs.filter (songMatches searchTerm)

/-- Modelled from the spec (§4.2): case-insensitive substring match of the
query against the track's title, artists and genre fields, succeeding when
at least one field matches. -/
def specMatch (song : Track) (query : String) : Bool :=
  [titleText song, artistText song, genreText song].any fun f =>
    includes (toLowerStr f) (toLowerStr query)

/-- The function `validateSongUrls(song)` from `utils/ncs.js`.  `streamTruthy` is the
truthiness of `song.previewUrl || song.stream_url || song.streamUrl ||
song.stream || song.url`; `downloadTruthy` that of `song.download?.regular
|| song.download_url || song.downloadUrl || song.download || streamUrl`
(a `||` chain is truthy exactly when some operand is). -/
def validateSongUrls (song : Track) : Bool :=
  let streamTruthy := truthy song.previewUrl || truthy song.stream_url ||
    truthy song.streamUrl || truthy song.stream || truthy song.url
  let downloadTruthy := truthy (dlRegular song.download) ||
    truthy song.download_url || truthy song.downloadUrl ||
    dlTruthy song.download || streamTruthy
  if !streamTruthy && !downloadTruthy then false else true

/-- Modelled from the spec (§3): a track is usable iff at least one of its
stream/download URL strings is non-empty.  The URL strings of a raw track
are `previewUrl`, `stream_url`, `streamUrl`, `stream`, `url`,
`download?.regular`, `download_url`, `downloadUrl`, and `download` itself
when it is a plain string. -/
def usableTrack (song : Track) : Bool :=
  truthy song.previewUrl || truthy song.stream_url || truthy song.streamUrl ||
  truthy song.stream || truthy song.url ||
  truthy (dlRegular song.download) || truthy song.download_url ||
  truthy song.downloadUrl ||
  (match song.download with
   | DlField.plain s => s != ""
   | _ => false)

/-- Failures of the `getRandomNcsSong` flow in the CLI entry point:
"No songs found" and "Invalid song URLs". -/
inductive FlowErr where
  | noSongs
  | invalidUrls
deriving DecidableEq, Repr

/-- The selection flow of `getRandomNcsSong` from the universal CLI
(`src/unnamed/part_002`), with the upstream fetch/search abstracted to
the resulting `songs` list and the final `formatSongData` projection
elided: throws when no songs were found, picks one, and throws instead of
returning it when `validateSongUrls` rejects the pick. -/
def getRandomNcsSong (songs : List Track) (r r2 : ℚ) : Except FlowErr Track :=
  if songs.length = 0 then Except.error FlowErr.noSongs
  else
    let song := getRandomSongPick songs r r2
    if validateSongUrls song then Except.ok song
    else Except.error FlowErr.invalidUrls

/-- Outcome of one `getSongs(page)` call of the catalog source: either the
promise rejects, or it resolves to a list of records (possibly empty). -/
inductive PageResult where
  | err
  | ok (songs : List Track)
deriving DecidableEq, Repr

/-- Failures of `fetchTrendingSongs`: a propagated page-1 error, or
"No trending songs found" when nothing accumulated. -/
inductive FetchErr where
  | pageError
  | noSongs
deriving DecidableEq, Repr

/-- The records of a page, `[]` for a failed page. -/
def pageSongsOf (src : Nat → PageResult) (p : Nat) : List Track :=
  match src p with
  | PageResult.ok l => l
  | PageResult.err => []

/-- Concatenated records of pages `start, start+1, ..., start+k-1`. -/
def joinPages (src : Nat → PageResult) (start k : Nat) : List Track :=
  ((List.range' start k).map (pageSongsOf src)).flatten

/-- The page loop of `fetchTrendingSongs` from `utils/ncs.js`.
`remaining` is the number of loop iterations left (`maxPages` at entry,
with `page` starting at 1); `acc` is `allSongs`.  A non-empty page is
accumulated and the loop continues; an empty (or non-truthy) page breaks;
an error on page 1 propagates while an error on a later page breaks.
After the loop, an empty accumulator raises "No trending songs found".
The second component records which pages were requested. -/
def fetchLoop (src : Nat → PageResult) :
    Nat → Nat → List Track → Except FetchErr (List Track) × List Nat
  | _, 0, acc =>
    (if acc.isEmpty then Except.error FetchErr.noSongs else Except.ok acc, [])
  | page, r + 1, acc =>
    match src page with
    | PageResult.err =>
      if page = 1 then (Except.error FetchErr.pageError, [page])
      else
        (if acc.isEmpty then Except.error FetchErr.noSongs else Except.ok acc,
         [page])
    | PageResult.ok songs =>
      if songs.length > 0 then
        let rest := fetchLoop src (page + 1) r (acc ++ songs)
        (rest.1, page :: rest.2)
      else
        (if acc.isEmpty then Except.error FetchErr.noSongs else Except.ok acc,
         [page])

/-- The function `fetchTrendingSongs(maxPages)` from `utils/ncs.js`, paired with the
trace of requested page numbers. -/
def fetchTrendingSongs (src : Nat → PageResult) (maxPages : Nat) :
    Except FetchErr (List Track) × List Nat :=
  fetchLoop src 1 maxPages []

/-- A normalized song as stored by `MemStorage` (`shared/schema.ts`). -/
structure Song where
  id : String
  title : String
  streamUrl : String
  downloadUrl : String
  thumbnailUrl : String
  duration : String
deriving DecidableEq, Repr

instance : Inhabited Song := ⟨⟨"", "", "", "", "", ""⟩⟩

/-- A raw NCS track as consumed by `MemStorage.loadInitialSongs`:
`{ name, artists, previewUrl, download: { regular }, coverUrl,
duration }`. -/
structure NcsTrack where
  name : Option String := none
  artists : Option (List Artist) := none
  previewUrl : Option String := none
  download : Option (Option String) := none
  coverUrl : Option String := none
  duration : Option Nat := none
deriving DecidableEq, Repr

/-- The method `MemStorage.formatDuration`: the string Unknown for a falsy input, otherwise
`minutes:seconds` with the seconds zero-padded to two digits. -/
def formatDuration : Option Nat → String
  | none => "Unknown"
  | some s =>
    if s = 0 then "Unknown"
    else
      toString (s / 60) ++ ":" ++
        (if s % 60 < 10 then "0" ++ toString (s % 60) else toString (s % 60))

/-- The song object built inside `MemStorage.loadInitialSongs` for one raw
track (the `randomUUID()` id is abstracted to the empty string; no claim
depends on ids). -/
def songFromTrack (t : NcsTrack) : Song :=
  let artistNames :=
    match t.artists with
    | some l => String.intercalate ", " (l.map Artist.name)
    | none => "Unknown Artist"
  { id := ""
    title := artistNames ++ " - " ++ t.name.getD "" ++ " [NCS Release]"
    streamUrl := (jsOr t.previewUrl (t.download.bind id)).getD ""
    downloadUrl := (t.download.bind id).getD ""
    thumbnailUrl := t.coverUrl.getD ""
    duration := formatDuration t.duration }

/-- The per-page body of `MemStorage.loadInitialSongs`: a track is kept
only when `name`, `download` and `coverUrl` are truthy and the built
song's three URLs are all non-empty. -/
def pageSongs (tracks : List NcsTrack) : List Song :=
  tracks.filterMap fun t =>
    if truthy t.name ∧ t.download.isSome ∧ truthy t.coverUrl then
      let song := songFromTrack t
      if song.streamUrl ≠ "" ∧ song.downloadUrl ≠ "" ∧ song.thumbnailUrl ≠ ""
      then some song else none
    else none

/-- The mutable state of `MemStorage`: the cached pool and the timestamp
of the last successful fetch (milliseconds). -/
structure MemState where
  songs : List Song
  lastFetch : Nat
deriving DecidableEq, Repr

/-- The constant `CACHE_DURATION = 1000 * 60 * 60 * 24` (24 hours). -/
def cacheDuration : Nat := 1000 * 60 * 60 * 24

/-- The fresh `MemStorage`: empty pool, `lastFetch = 0`. -/
def initialState : MemState := ⟨[], 0⟩

/-- One iteration of the page loop in `MemStorage.loadInitialSongs`: a
page whose fetch rejects (or does not return an array), modelled by
`none`, is skipped; otherwise its filtered songs are appended. -/
def fetchStep (pages : Nat → Option (List NcsTrack)) (acc : List Song)
    (i : Nat) : List Song :=
  match pages (i + 1) with
  | some resp => acc ++ pageSongs resp
  | none => acc

/-- The accumulation over the 25 fetched pages in
`MemStorage.loadInitialSongs` (pages 1 to 25). -/
def fetchAllPages (pages : Nat → Option (List NcsTrack)) : List Song :=
  (List.range 25).foldl (fetchStep pages) []

/-- The method `MemStorage.loadInitialSongs` as a state transition, given the clock
`now` and the page responses.  When the cache is still valid nothing
happens; when the accumulated fetch is non-empty it replaces the pool and
stamps `lastFetch`; otherwise `seedWithFallbackData` runs, which sets the
pool to `[]` (its delayed asynchronous retry is outside this synchronous
model). -/
def loadInitialSongs (st : MemState) (now : Nat)
    (pages : Nat → Option (List NcsTrack)) : MemState :=
  if st.songs ≠ [] ∧ now - st.lastFetch < cacheDuration then st
  else
    let allSongs := fetchAllPages pages
    if allSongs ≠ [] then { songs := allSongs, lastFetch := now }
    else { songs := [], lastFetch := st.lastFetch }

/-- The method `MemStorage.refreshSongsIfNeeded`: reload when more than
`CACHE_DURATION` has passed since the last fetch. -/
def refreshSongsIfNeeded (st : MemState) (now : Nat)
    (pages : Nat → Option (List NcsTrack)) : MemState :=
  if cacheDuration < now - st.lastFetch then loadInitialSongs st now pages
  else st

/-- The method `MemStorage.getAllSongs`: refresh if needed, then return the pool
(together with the updated state). -/
def getAllSongs (st : MemState) (now : Nat)
    (pages : Nat → Option (List NcsTrack)) : List Song × MemState :=
  let st2 := refreshSongsIfNeeded st now pages
  (st2.songs, st2)

/-- The three-URL invariant of cached songs: non-empty `streamUrl`,
`downloadUrl` and `thumbnailUrl`. -/
def songInv (s : Song) : Prop :=
  s.streamUrl ≠ "" ∧ s.downloadUrl ≠ "" ∧ s.thumbnailUrl ≠ ""

/-- The effective count of the `GET /random` handler
(`server/routes.ts`): `parseInt(req.query.count) || 1`, where `none`
stands for a missing or unparsable parameter (`parseInt` yields `NaN`,
which is falsy, as is a parsed `0`). -/
def effectiveCount : Option Int → Int
  | none => 1
  | some v => if v = 0 then 1 else v

/-- The random-pick loop of the `GET /random` handler: up to `k` draws
without replacement (`splice` removes the drawn index) stopping early when
the copy of the pool is exhausted. -/
def pickLoop (rand : Nat → ℚ) : Nat → List Song → Nat → List Song
  | _, _, 0 => []
  | idx, available, k + 1 =>
    if available.length = 0 then []
    else
      let j := uniformIndex (rand idx) available.length
      available.getD j default :: pickLoop rand (idx + 1) (available.eraseIdx j) k

/-- The JSON payload of a successful `GET /random` response (the per-song
cosmetic formatting, an element-wise map, is elided; `data` holds the
selected songs). -/
structure RandomPayload where
  data : List Song
  count : Nat
  total_available : Nat
deriving DecidableEq, Repr

/-- The `GET /random` handler from `server/routes.ts`:
`maxCount = Math.min(parseInt(count) || 1, 50)`; 404 when the pool is
empty; otherwise draws `maxCount` songs without replacement (a negative
`maxCount` runs the loop zero times).  The already-refreshed pool is
passed in as `songs`. -/
def randomHandler (songs : List Song) (countParam : Option Int)
    (rand : Nat → ℚ) : Except Nat RandomPayload :=
  let maxCount : Int := min (effectiveCount countParam) 50
  if songs.length = 0 then Except.error 404
  else
    let picked := pickLoop rand 0 songs maxCount.toNat
    Except.ok
      { data := picked
        count := picked.length
        total_available := songs.length }

/-! ## Helper lemmas about the selection engine -/

/-- A uniform draw `r2 ∈ [0,1)` over a non-empty slice yields an in-range
index. -/
lemma uniformIndex_lt (r2 : ℚ) (len : Nat) (h0 : 0 ≤ r2) (h1 : r2 < 1)
    (hlen : 0 < len) : uniformIndex r2 len < len := by
  have hlen' : (0 : ℚ) < (len : ℚ) := by exact_mod_cast hlen
  have hfl : Int.floor (r2 * (len : ℚ)) < (len : ℤ) := by
    rw [Int.floor_lt]
    push_cast
    exact mul_lt_of_lt_one_left hlen' h1
  have hf0 : 0 ≤ Int.floor (r2 * (len : ℚ)) :=
    Int.floor_nonneg.mpr (mul_nonneg h0 (le_of_lt hlen'))
  unfold uniformIndex
  omega

/-- Reading a list with `getD` at an in-range index yields a member of the list. -/
lemma getD_mem {α : Type} [Inhabited α] (l : List α) (i : Nat) (d : α)
    (h : i < l.length) : l.getD i d ∈ l := by
  rw [List.getD_eq_getElem l d h]
  exact List.getElem_mem h

/-- The 60% prefix bound is at least 1 and at most the pool size. -/
lemma ceil_frac_bounds (n : Nat) (hn : 0 < n) (c : ℚ) (hc0 : 0 < c)
    (hc1 : c ≤ 1) :
    0 < Nat.ceil ((n : ℚ) * c) ∧ Nat.ceil ((n : ℚ) * c) ≤ n := by
  constructor
  · exact Nat.ceil_pos.mpr (mul_pos (by exact_mod_cast hn) hc0)
  · apply Nat.ceil_le.mpr
    calc (n : ℚ) * c ≤ (n : ℚ) * 1 := by
          exact mul_le_mul_of_nonneg_left hc1 (by positivity)
      _ = (n : ℚ) := by ring

/-- The weighted pick always lands inside the pool. -/
lemma getRandomSongPick_mem (songs : List Track) (r r2 : ℚ)
    (hne : songs ≠ []) (h0 : 0 ≤ r2) (h1 : r2 < 1) :
    getRandomSongPick songs r r2 ∈ songs := by
  have hn : 0 < songs.length := List.length_pos.mpr hne
  unfold getRandomSongPick
  have htake : ∀ c : ℚ, 0 < c → c ≤ 1 →
      (songs.take (Nat.ceil ((songs.length : ℚ) * c))).getD
        (uniformIndex r2
          (songs.take (Nat.ceil ((songs.length : ℚ) * c))).length) default
        ∈ songs := by
    intro c hc0 hc1
    obtain ⟨hpos, hle⟩ := ceil_frac_bounds songs.length hn c hc0 hc1
    have hlt : 0 < (songs.take (Nat.ceil ((songs.length : ℚ) * c))).length := by
      rw [List.length_take]
      omega
    exact List.take_subset _ _
      (getD_mem _ _ _ (uniformIndex_lt r2 _ h0 h1 hlt))
  split
  · exact htake 0.6 (by norm_num) (by norm_num)
  · split
    · exact htake 0.8 (by norm_num) (by norm_num)
    · exact getD_mem _ _ _ (uniformIndex_lt r2 _ h0 h1 hn)

/-- On a singleton pool every draw picks the unique track. -/
lemma getRandomSongPick_singleton (t : Track) (r r2 : ℚ) (h0 : 0 ≤ r2)
    (h1 : r2 < 1) : getRandomSongPick [t] r r2 = t :=
  List.mem_singleton.mp
    (getRandomSongPick_mem [t] r r2 (by simp) h0 h1)

/-! ## Claims C3, C4, C5: the selection engine -/

/-- C3: for a non-empty pool of `n` tracks, `getRandomSong` picks the
element at the uniform index `⌊r2·k⌋` of the prefix of the first
`⌈0.6·n⌉` tracks when `r < 0.70`, of the first `⌈0.8·n⌉` tracks when
`0.70 ≤ r < 0.90`, and of the full pool when `r ≥ 0.90`; the pick is a
member of the respective slice, and the index map is uniform: each index
`i` of a slice of length `len` is hit exactly for `r2` in the interval
`[i/len, (i+1)/len)`, an interval of length `1/len`. -/
theorem getRandomSong_weighted_tiers (songs : List Track) (r r2 : ℚ)
    (hne : songs ≠ []) (h0 : 0 ≤ r2) (h1 : r2 < 1) :
    (r < 0.7 → ∃ k, k = Nat.ceil ((songs.length : ℚ) * 0.6) ∧
      getRandomSong songs r r2 = Except.ok
        ((songs.take k).getD (uniformIndex r2 (songs.take k).length) default) ∧
      (songs.take k).getD (uniformIndex r2 (songs.take k).length) default
        ∈ songs.take k) ∧
    (0.7 ≤ r → r < 0.9 → ∃ k, k = Nat.ceil ((songs.length : ℚ) * 0.8) ∧
      getRandomSong songs r r2 = Except.ok
        ((songs.take k).getD (uniformIndex r2 (songs.take k).length) default) ∧
      (songs.take k).getD (uniformIndex r2 (songs.take k).length) default
        ∈ songs.take k) ∧
    (0.9 ≤ r →
      getRandomSong songs r r2 = Except.ok
        (songs.getD (uniformIndex r2 songs.length) default) ∧
      songs.getD (uniformIndex r2 songs.length) default ∈ songs) ∧
    (∀ len i : Nat, 0 < len → i < len →
      (uniformIndex r2 len = i ↔
        (i : ℚ) / (len : ℚ) ≤ r2 ∧ r2 < ((i : ℚ) + 1) / (len : ℚ))) := by
  have hn : 0 < songs.length := List.length_pos.mpr hne
  have hlen0 : ¬ songs.length = 0 := by omega
  have slice_mem : ∀ c : ℚ, 0 < c → c ≤ 1 →
      (songs.take (Nat.ceil ((songs.length : ℚ) * c))).getD
        (uniformIndex r2
          (songs.take (Nat.ceil ((songs.length : ℚ) * c))).length) default
        ∈ songs.take (Nat.ceil ((songs.length : ℚ) * c)) := by
    intro c hc0 hc1
    obtain ⟨hpos, hle⟩ := ceil_frac_bounds songs.length hn c hc0 hc1
    have hlt : 0 < (songs.take (Nat.ceil ((songs.length : ℚ) * c))).length := by
      rw [List.length_take]; omega
    exact getD_mem _ _ _ (uniformIndex_lt r2 _ h0 h1 hlt)
  refine ⟨?_, ?_, ?_, ?_⟩
  · intro hr
    refine ⟨_, rfl, ?_, slice_mem 0.6 (by norm_num) (by norm_num)⟩
    simp only [getRandomSong, getRandomSongPick, if_neg hlen0, if_pos hr]
  · intro hr1 hr2
    refine ⟨_, rfl, ?_, slice_mem 0.8 (by norm_num) (by norm_num)⟩
    simp only [getRandomSong, getRandomSongPick, if_neg hlen0,
      if_neg (not_lt.mpr hr1), if_pos hr2]
  · intro hr
    refine ⟨?_, getD_mem _ _ _ (uniformIndex_lt r2 _ h0 h1 hn)⟩
    have h7 : ¬ r < 0.7 := not_lt.mpr (le_trans (by norm_num) hr)
    have h9 : ¬ r < 0.9 := not_lt.mpr hr
    simp only [getRandomSong, getRandomSongPick, if_neg hlen0, if_neg h7,
      if_neg h9]
  · intro len i hlen hi
    have hlen' : (0 : ℚ) < (len : ℚ) := by exact_mod_cast hlen
    have hf0 : 0 ≤ Int.floor (r2 * (len : ℚ)) :=
      Int.floor_nonneg.mpr (mul_nonneg h0 (le_of_lt hlen'))
    unfold uniformIndex
    rw [show ((Int.floor (r2 * (len : ℚ))).toNat = i ↔
        Int.floor (r2 * (len : ℚ)) = (i : ℤ)) from by omega]
    rw [Int.floor_eq_iff]
    constructor
    · rintro ⟨ha, hb⟩
      constructor
      · rw [div_le_iff₀ hlen']
        exact_mod_cast ha
      · rw [lt_div_iff₀ hlen']
        push_cast at hb ⊢
        linarith
    · rintro ⟨ha, hb⟩
      constructor
      · rw [div_le_iff₀ hlen'] at ha
        exact_mod_cast ha
      · rw [lt_div_iff₀ hlen'] at hb
        push_cast at hb ⊢
        linarith

/-- C3 witness: instantiation at a concrete five-track pool with
`r = 0.9` (full-pool tier) and `r2 = 0`. -/
theorem getRandomSong_weighted_tiers_witness :
    getRandomSong [{ name := some "s1" }, { name := some "s2" },
        { name := some "s3" }, { name := some "s4" }, { name := some "s5" }]
        0.9 0 = Except.ok
        (List.getD [{ name := some "s1" }, { name := some "s2" },
          { name := some "s3" }, { name := some "s4" }, { name := some "s5" }]
          (uniformIndex 0
            (List.length [({ name := some "s1" } : Track),
              { name := some "s2" }, { name := some "s3" },
              { name := some "s4" }, { name := some "s5" }])) default) :=
  ((getRandomSong_weighted_tiers
    [{ name := some "s1" }, { name := some "s2" }, { name := some "s3" },
      { name := some "s4" }, { name := some "s5" }] 0.9 0
    (by simp) (le_refl 0) zero_lt_one).2.2.1 (le_refl 0.9)).1

/-- C4: `getRandomSong` fails with the empty-pool error exactly when the
pool is empty, and on a non-empty pool it returns a member of the pool
for every draw of the random source. -/
theorem getRandomSong_empty_iff_and_mem (songs : List Track) (r r2 : ℚ)
    (h0 : 0 ≤ r2) (h1 : r2 < 1) :
    (getRandomSong songs r r2 = Except.error SelErr.emptyPool ↔ songs = []) ∧
    (songs ≠ [] → ∃ t, getRandomSong songs r r2 = Except.ok t ∧ t ∈ songs) := by
  constructor
  · constructor
    · intro h
      by_contra hne
      have hlen : ¬ songs.length = 0 := by
        simpa [List.length_eq_zero] using hne
      simp [getRandomSong, hlen] at h
    · intro h
      subst h
      simp [getRandomSong]
  · intro hne
    have hlen : ¬ songs.length = 0 := by
      simpa [List.length_eq_zero] using hne
    exact ⟨getRandomSongPick songs r r2, by simp [getRandomSong, hlen],
      getRandomSongPick_mem songs r r2 hne h0 h1⟩

/-- C4 witness: the empty pool errors, and a concrete two-track pool
yields a member. -/
theorem getRandomSong_empty_iff_and_mem_witness :
    getRandomSong [] 0 0 = Except.error SelErr.emptyPool ∧
    ∃ t, getRandomSong [{ name := some "a" }, { name := some "b" }] 0 0 =
      Except.ok t ∧ t ∈ [({ name := some "a" } : Track), { name := some "b" }] :=
  ⟨(getRandomSong_empty_iff_and_mem [] 0 0 (le_refl 0) zero_lt_one).1.mpr rfl,
    (getRandomSong_empty_iff_and_mem
      [{ name := some "a" }, { name := some "b" }] 0 0
      (le_refl 0) zero_lt_one).2 (by simp)⟩

/-- The slot loop of `getMultipleRandomSongs` adds exactly one track per
slot. -/
lemma selectLoop_length (songs : List Track) (rand : Nat → ℚ) :
    ∀ (k idx : Nat) (selected : List Track),
      (selectLoop songs rand idx k selected).length = selected.length + k := by
  intro k
  induction k with
  | zero => intro idx selected; simp [selectLoop]
  | succ n ih =>
    intro idx selected
    simp only [selectLoop]
    rw [ih]
    simp
    omega

/-- C5: on a non-empty pool `getMultipleRandomSongs` returns exactly
`min(count, 10, pool.length)` tracks, whatever the random source does
(the bounded retry per slot keeps the pick of the last allowed attempt,
so a duplicate never shrinks the result). -/
theorem getMultipleRandomSongs_count (songs : List Track) (count : Nat)
    (rand : Nat → ℚ) (hne : songs ≠ []) :
    ∃ l, getMultipleRandomSongs songs count rand = Except.ok l ∧
      l.length = min count (min 10 songs.length) := by
  have hlen : ¬ songs.length = 0 := by
    simpa [List.length_eq_zero] using hne
  refine ⟨selectLoop songs rand 0 (min count (min 10 songs.length)) [], ?_, ?_⟩
  · simp [getMultipleRandomSongs, hlen]
  · rw [selectLoop_length]
    simp

/-- C5 witness: a two-track pool with a requested count of 7 yields
exactly 2 tracks. -/
theorem getMultipleRandomSongs_count_witness :
    ∃ l, getMultipleRandomSongs
        [{ name := some "a" }, { name := some "b" }] 7 (fun _ => 0) =
        Except.ok l ∧ l.length = 2 := by
  obtain ⟨l, hl, hlen⟩ := getMultipleRandomSongs_count
    [{ name := some "a" }, { name := some "b" }] 7 (fun _ => 0) (by simp)
  exact ⟨l, hl, by rw [hlen]; simp⟩

/-! ## Claim C2: paging behaviour of fetchTrendingSongs -/

/-- A successful non-empty page is accumulated and the loop moves on. -/
lemma fetchLoop_ok_cons (src : Nat → PageResult) (page r : Nat)
    (acc l : List Track) (hl : src page = PageResult.ok l) (hlne : l ≠ []) :
    fetchLoop src page (r + 1) acc =
      ((fetchLoop src (page + 1) r (acc ++ l)).1,
        page :: (fetchLoop src (page + 1) r (acc ++ l)).2) := by
  simp [fetchLoop, hl, List.length_pos, hlne]

/-- The trace of requested pages is always an initial run
`page, page+1, ...` of length at most the remaining iteration count. -/
lemma fetchLoop_trace (src : Nat → PageResult) :
    ∀ (r page : Nat) (acc : List Track),
      ∃ k, k ≤ r ∧ (fetchLoop src page r acc).2 = List.range' page k := by
  intro r
  induction r with
  | zero =>
    intro page acc
    exact ⟨0, le_refl 0, by simp [fetchLoop]⟩
  | succ n ih =>
    intro page acc
    match hsrc : src page with
    | PageResult.err =>
      refine ⟨1, by omega, ?_⟩
      simp only [fetchLoop, hsrc]
      split <;> simp
    | PageResult.ok songs =>
      by_cases hlen : songs.length > 0
      · obtain ⟨k, hk, htr⟩ := ih (page + 1) (acc ++ songs)
        refine ⟨k + 1, by omega, ?_⟩
        simp only [fetchLoop, hsrc, if_pos hlen, htr]
        rw [List.range'_succ]
      · refine ⟨1, by omega, ?_⟩
        simp only [fetchLoop, hsrc, if_neg hlen]
        simp

/-- Running the loop across `k` consecutive successful non-empty pages
accumulates their records and extends the trace. -/
lemma fetchLoop_run (src : Nat → PageResult) :
    ∀ (k page r : Nat) (acc : List Track),
      (∀ j, j < k → ∃ l, src (page + j) = PageResult.ok l ∧ l ≠ []) →
      k ≤ r →
      fetchLoop src page r acc =
        ((fetchLoop src (page + k) (r - k) (acc ++ joinPages src page k)).1,
          List.range' page k ++
            (fetchLoop src (page + k) (r - k) (acc ++ joinPages src page k)).2) := by
  intro k
  induction k with
  | zero =>
    intro page r acc _ _
    simp [joinPages]
  | succ n ih =>
    intro page r acc hok hkr
    obtain ⟨l, hl, hlne⟩ := hok 0 (Nat.succ_pos n)
    rw [Nat.add_zero] at hl
    cases r with
    | zero => omega
    | succ r0 =>
      rw [fetchLoop_ok_cons src page r0 acc l hl hlne]
      have hok2 : ∀ j, j < n →
          ∃ l2, src (page + 1 + j) = PageResult.ok l2 ∧ l2 ≠ [] := by
        intro j hj
        have h := hok (j + 1) (by omega)
        rwa [show page + (j + 1) = page + 1 + j from by omega] at h
      rw [ih (page + 1) r0 (acc ++ l) hok2 (by omega)]
      have hjoin : joinPages src page (n + 1) = l ++ joinPages src (page + 1) n := by
        simp [joinPages, List.range'_succ, pageSongsOf, hl]
      simp only [hjoin, ← List.append_assoc, List.range'_succ,
        List.cons_append, Nat.succ_sub_succ]
      rw [show page + (n + 1) = page + 1 + n from by omega]

/-- Consecutive successful non-empty pages accumulate a non-empty pool. -/
lemma joinPages_ne_nil (src : Nat → PageResult) (start k : Nat) (hk : 0 < k)
    (l : List Track) (hl : src start = PageResult.ok l) (hlne : l ≠ []) :
    joinPages src start k ≠ [] := by
  obtain ⟨k0, rfl⟩ : ∃ k0, k = k0 + 1 := ⟨k - 1, by omega⟩
  simp [joinPages, List.range'_succ, pageSongsOf, hl, hlne]

/-- C2: `fetchTrendingSongs` requests pages sequentially from page 1
(the trace is an initial run `[1, ..., k]` with `k ≤ maxPages`); a page-1
failure fails the whole refresh; a failure on a later page `p` stops the
loop and the records of pages `1..p-1` are returned as a success; and on
a source with 3 records on page 1 and none on page 2, `maxPages = 5`
returns exactly those 3 records having requested pages 1 and 2 only. -/
theorem fetchTrendingSongs_paging :
    (∀ (src : Nat → PageResult) (maxPages : Nat), 0 < maxPages →
      src 1 = PageResult.err →
      fetchTrendingSongs src maxPages = (Except.error FetchErr.pageError, [1])) ∧
    (∀ (src : Nat → PageResult) (maxPages p : Nat), 2 ≤ p → p ≤ maxPages →
      (∀ q, 1 ≤ q → q < p → ∃ l, src q = PageResult.ok l ∧ l ≠ []) →
      src p = PageResult.err →
      fetchTrendingSongs src maxPages =
        (Except.ok (joinPages src 1 (p - 1)), List.range' 1 p)) ∧
    (∀ (src : Nat → PageResult) (t1 t2 t3 : Track),
      src 1 = PageResult.ok [t1, t2, t3] → src 2 = PageResult.ok [] →
      fetchTrendingSongs src 5 = (Except.ok [t1, t2, t3], [1, 2])) ∧
    (∀ (src : Nat → PageResult) (maxPages : Nat), ∃ k, k ≤ maxPages ∧
      (fetchTrendingSongs src maxPages).2 = List.range' 1 k) := by
  refine ⟨?_, ?_, ?_, ?_⟩
  · intro src maxPages hpos herr
    obtain ⟨m, rfl⟩ : ∃ m, maxPages = m + 1 := ⟨maxPages - 1, by omega⟩
    simp [fetchTrendingSongs, fetchLoop, herr]
  · intro src maxPages p hp2 hpm hok herr
    unfold fetchTrendingSongs
    have hok2 : ∀ j, j < p - 1 →
        ∃ l, src (1 + j) = PageResult.ok l ∧ l ≠ [] := by
      intro j hj
      exact hok (1 + j) (by omega) (by omega)
    rw [fetchLoop_run src (p - 1) 1 maxPages [] hok2 (by omega)]
    obtain ⟨l1, hl1, hl1ne⟩ := hok 1 (le_refl 1) (by omega)
    have hne : joinPages src 1 (p - 1) ≠ [] :=
      joinPages_ne_nil src 1 (p - 1) (by omega) l1 hl1 hl1ne
    rw [show 1 + (p - 1) = p from by omega]
    obtain ⟨m0, hm0⟩ : ∃ m0, maxPages - (p - 1) = m0 + 1 :=
      ⟨maxPages - (p - 1) - 1, by omega⟩
    rw [hm0]
    have hp1 : ¬ p = 1 := by omega
    simp only [fetchLoop, herr, if_neg hp1, List.nil_append]
    rw [if_neg (by simpa [List.isEmpty_iff] using hne)]
    rw [show p = (p - 1) + 1 from by omega, List.range'_concat]
    simp [show 1 + (p - 1 - 1 + 1) = p - 1 + 1 from by omega,
      show p - 1 + 1 - 1 = p - 1 from by omega]
    omega
  · intro src t1 t2 t3 h1 h2
    unfold fetchTrendingSongs
    rw [show (5 : Nat) = 4 + 1 from rfl,
      fetchLoop_ok_cons src 1 4 [] [t1, t2, t3] h1 (by simp)]
    rw [show (4 : Nat) = 3 + 1 from rfl]
    simp [fetchLoop, h2]
  · intro src maxPages
    obtain ⟨k, hk, htr⟩ := fetchLoop_trace src maxPages 1 []
    exact ⟨k, hk, htr⟩

/-- A concrete catalog source for the C2 witness: 3 records on page 1,
nothing afterwards. -/
def srcW : Nat → PageResult := fun p =>
  if p = 1 then
    PageResult.ok [{ name := some "w1" }, { name := some "w2" },
      { name := some "w3" }]
  else PageResult.ok []

/-- C2 witness: the concrete 3-records-then-empty source under
`maxPages = 5` yields the 3 records, requesting only pages 1 and 2. -/
theorem fetchTrendingSongs_paging_witness :
    fetchTrendingSongs srcW 5 =
      (Except.ok [{ name := some "w1" }, { name := some "w2" },
        { name := some "w3" }], [1, 2]) :=
  fetchTrendingSongs_paging.2.2.1 srcW _ _ _ rfl rfl

/-! ## Claims C7, C8: local search -/

/-- The one-record pool of the spec's search example. -/
def fadeTrack : Track :=
  { title := some "Fade", artists := some [⟨"Alan Walker"⟩] }

/-- A track whose display name contains a space, so that a blank query
matches it as a literal substring. -/
def blankTrack : Track := { name := some "a b" }

/-- C7 (amended): an empty query yields `[]`; a query that matches no
track of the pool yields `[]` (in particular a term occurring in no
title, artists or genre); but a whitespace-only query is not
special-cased — it is matched as a literal substring, so it yields `[]`
only on pools none of whose fields contain that whitespace. -/
theorem searchInSongs_empty_results :
    (∀ songs : List Track, searchInSongs songs "" = []) ∧
    (∀ (songs : List Track) (q : String),
      (∀ t ∈ songs, songMatches (toLowerStr q) t = false) →
      searchInSongs songs q = []) ∧
    searchInSongs [fadeTrack] "NONEXISTENTTERM_XYZ" = [] := by
  refine ⟨?_, ?_, ?_⟩
  · intro songs
    simp [searchInSongs]
  · intro songs q hmatch
    by_cases hq : q = ""
    · simp [searchInSongs, hq]
    · by_cases hs : songs = []
      · simp [searchInSongs, hs]
      · rw [searchInSongs, if_neg (by simp [hq, hs])]
        exact List.filter_eq_nil_iff.mpr fun t ht => by simp [hmatch t ht]
  · decide

/-- C7 counterexample: a blank (whitespace-only) query does not return
the empty result set on every pool — on a pool whose track name contains
a space it returns that track. -/
theorem searchInSongs_blank_query_cx :
    searchInSongs [blankTrack] " " ≠ [] := by decide

/-- C7 witness: a term occurring nowhere in the pool yields `[]`. -/
theorem searchInSongs_empty_results_witness :
    searchInSongs [fadeTrack] "zzz" = [] :=
  searchInSongs_empty_results.2.1 [fadeTrack] "zzz" (by decide)

/-- C8: for every pool and non-empty query, `searchInSongs` returns
exactly the tracks at least one of whose title, artists or genre fields
matches the query case-insensitively; the spec's one-record example with
query "alan" returns that record via the artist field. -/
theorem searchInSongs_field_match :
    (∀ (songs : List Track) (q : String), q ≠ "" →
      searchInSongs songs q = songs.filter fun song => specMatch song q) ∧
    searchInSongs [fadeTrack] "alan" = [fadeTrack] := by
  constructor
  · intro songs q hq
    by_cases hs : songs = []
    · simp [searchInSongs, hs]
    · rw [searchInSongs, if_neg (by simp [hq, hs])]
      apply List.filter_congr
      intro song _
      simp [songMatches, specMatch, Bool.or_assoc]
  · decide

/-- C8 witness: instantiation of the filter characterization at the
one-record pool with query "walker". -/
theorem searchInSongs_field_match_witness :
    searchInSongs [fadeTrack] "walker" =
      List.filter (fun song => specMatch song "walker") [fadeTrack] :=
  searchInSongs_field_match.1 [fadeTrack] "walker" (by decide)

/-! ## Claim C6: URL validation and the selection flow -/

/-- The JS pattern `if (!a && !b) return false; return true` is the
disjunction of the truthiness of the two chains. -/
lemma if_not_and (a b : Bool) :
    (if !a && !b then false else true) = (a || b) := by
  cases a <;> cases b <;> rfl

/-- The truthiness of the `download` property splits into the plain
non-empty string case and the object case. -/
lemma dlTruthy_split (d : DlField) :
    dlTruthy d =
      ((match d with | DlField.plain s => s != "" | _ => false) ||
        dlIsObj d) := by
  cases d <;> simp [dlTruthy, dlIsObj]

/-- Shape of the two truthiness chains of `validateSongUrls`: the stream
chain reappears at the end of the download chain, and the download
truthiness splits into a URL part and an object part. -/
lemma or_absorb_shape : ∀ p su sU st u reg du dU y z : Bool,
    ((p || su || sU || st || u) ||
      (reg || du || dU || (y || z) || (p || su || sU || st || u))) =
    ((p || su || sU || st || u || reg || du || dU || y) || z) := by
  decide

/-- C6 (amended): `validateSongUrls` is a total boolean predicate, and it
returns `true` exactly when the track is usable (some stream/download URL
string non-empty) **or** its `download` property is an object — even an
object holding no URL; the selection flow returns only tracks passing
`validateSongUrls` and rejects with "Invalid song URLs" when the selected
track fails it. -/
theorem validateSongUrls_truthiness :
    (∀ song : Track,
      validateSongUrls song = (usableTrack song || dlIsObj song.download)) ∧
    (∀ (songs : List Track) (r r2 : ℚ) (t : Track),
      getRandomNcsSong songs r r2 = Except.ok t → validateSongUrls t = true) ∧
    (∀ (songs : List Track) (r r2 : ℚ), songs ≠ [] →
      validateSongUrls (getRandomSongPick songs r r2) = false →
      getRandomNcsSong songs r r2 = Except.error FlowErr.invalidUrls) := by
  refine ⟨?_, ?_, ?_⟩
  · intro song
    show (if _ then false else true) = _
    rw [if_not_and, dlTruthy_split, usableTrack]
    exact or_absorb_shape _ _ _ _ _ _ _ _ _ _
  · intro songs r r2 t h
    rw [getRandomNcsSong] at h
    by_cases h1 : songs.length = 0
    · rw [if_pos h1] at h
      simp at h
    · rw [if_neg h1] at h
      by_cases h2 : validateSongUrls (getRandomSongPick songs r r2) = true
      · rw [if_pos h2] at h
        rw [Except.ok.injEq] at h
        rw [← h]
        exact h2
      · rw [if_neg h2] at h
        simp at h
  · intro songs r r2 hne hval
    have hlen : ¬ songs.length = 0 := by
      simpa [List.length_eq_zero] using hne
    simp [getRandomNcsSong, hlen, hval]

/-- C6 counterexample: a track whose `download` property is an object
with no regular URL passes `validateSongUrls` although none of its
stream/download URL strings is non-empty. -/
theorem validateSongUrls_object_download_cx :
    validateSongUrls { download := DlField.obj none } = true ∧
    usableTrack { download := DlField.obj none } = false := by
  constructor <;> decide

/-- C6 witness: a singleton pool holding a track with no URLs at all is
rejected by the flow with the invalid-URLs error. -/
theorem validateSongUrls_truthiness_witness :
    getRandomNcsSong [{}] 0 0 = Except.error FlowErr.invalidUrls := by
  apply validateSongUrls_truthiness.2.2 [{}] 0 0 (by simp)
  rw [getRandomSongPick_singleton {} 0 0 (le_refl 0) zero_lt_one]
  decide

/-! ## Claims C1, C10: the MemStorage cache -/

/-- A cached song from a prior successful refresh, for concrete
instantiations. -/
def cxSong : Song := ⟨"id1", "A - B [NCS Release]", "s", "d", "t", "3:00"⟩

/-- A cache state holding one song fetched at time 0. -/
def cxState : MemState := ⟨[cxSong], 0⟩

/-- C1 (amended): `getAllSongs` returns the cached pool unchanged only
while the 24-hour window since the last successful fetch has not elapsed;
once a refresh is due, a refresh that fails on every page or yields zero
records runs `seedWithFallbackData`, which replaces the existing
non-empty pool with the empty list, so `getAllSongs` returns `[]` rather
than the stale pool. -/
theorem getAllSongs_stale_window :
    (∀ (st : MemState) (now : Nat) (pages : Nat → Option (List NcsTrack)),
      st.songs ≠ [] → now - st.lastFetch ≤ cacheDuration →
      (getAllSongs st now pages).1 = st.songs) ∧
    (∀ (st : MemState) (now : Nat) (pages : Nat → Option (List NcsTrack)),
      cacheDuration < now - st.lastFetch → fetchAllPages pages = [] →
      (getAllSongs st now pages).1 = []) := by
  constructor
  · intro st now pages _ hle
    simp [getAllSongs, refreshSongsIfNeeded, Nat.not_lt.mpr hle]
  · intro st now pages hgt hfe
    have hnot : ¬ (st.songs ≠ [] ∧ now - st.lastFetch < cacheDuration) := by
      rintro ⟨-, hlt⟩
      omega
    simp [getAllSongs, refreshSongsIfNeeded, hgt, loadInitialSongs, hnot, hfe]

/-- C1 counterexample: with a non-empty pool from a prior successful
refresh and a due refresh whose every page fails, `getAllSongs` returns
`[]`, not the stale pool — the failed refresh empties the pool. -/
theorem getAllSongs_failed_refresh_empties_pool_cx :
    cxState.songs = [cxSong] ∧
    (getAllSongs cxState (cacheDuration + 1) (fun _ => none)).1 = [] := by
  constructor
  · rfl
  · decide

/-- C1 witness: within the window the stale pool is served unchanged;
past the window a fully failing refresh empties it. -/
theorem getAllSongs_stale_window_witness :
    (getAllSongs cxState 5 (fun _ => none)).1 = cxState.songs ∧
    (getAllSongs cxState (cacheDuration + 2) (fun _ => none)).1 = [] :=
  ⟨getAllSongs_stale_window.1 cxState 5 (fun _ => none) (by decide) (by decide),
    getAllSongs_stale_window.2 cxState (cacheDuration + 2) (fun _ => none)
      (by decide) (by decide)⟩

/-- Every song admitted by the per-page filter satisfies the three-URL
invariant. -/
lemma pageSongs_inv (l : List NcsTrack) : ∀ s ∈ pageSongs l, songInv s := by
  intro s hs
  rw [pageSongs, List.mem_filterMap] at hs
  obtain ⟨t, -, ht⟩ := hs
  dsimp only at ht
  split_ifs at ht with h1 h2
  rw [Option.some.injEq] at ht
  exact ht ▸ h2

/-- The page accumulation only ever appends filtered songs. -/
lemma fetchAllPages_inv (pages : Nat → Option (List NcsTrack)) :
    ∀ s ∈ fetchAllPages pages, songInv s := by
  suffices h : ∀ (idxs : List Nat) (acc : List Song), (∀ s ∈ acc, songInv s) →
      ∀ s ∈ idxs.foldl (fetchStep pages) acc, songInv s by
    exact h (List.range 25) [] (by simp)
  intro idxs
  induction idxs with
  | nil =>
    intro acc hacc s hs
    exact hacc s hs
  | cons i rest ih =>
    intro acc hacc s hs
    rw [List.foldl_cons] at hs
    refine ih (fetchStep pages acc i) ?_ s hs
    intro s2 hs2
    rw [fetchStep] at hs2
    cases hp : pages (i + 1) with
    | none =>
      rw [hp] at hs2
      exact hacc s2 hs2
    | some resp =>
      rw [hp] at hs2
      rcases List.mem_append.mp hs2 with h | h
      · exact hacc s2 h
      · exact pageSongs_inv resp s2 h

/-- C10: every song in the `MemStorage` pool has non-empty `streamUrl`,
`downloadUrl` and `thumbnailUrl`: the invariant holds for the initial
empty pool and is preserved by `loadInitialSongs` (whose per-page filter
drops any fetched record missing one of the three URLs) and hence by
`getAllSongs`. -/
theorem memStorage_pool_url_invariant :
    (∀ s ∈ initialState.songs, songInv s) ∧
    (∀ (st : MemState) (now : Nat) (pages : Nat → Option (List NcsTrack)),
      (∀ s ∈ st.songs, songInv s) →
      ∀ s ∈ (loadInitialSongs st now pages).songs, songInv s) ∧
    (∀ (st : MemState) (now : Nat) (pages : Nat → Option (List NcsTrack)),
      (∀ s ∈ st.songs, songInv s) →
      ∀ s ∈ (getAllSongs st now pages).1, songInv s) := by
  have hload : ∀ (st : MemState) (now : Nat)
      (pages : Nat → Option (List NcsTrack)), (∀ s ∈ st.songs, songInv s) →
      ∀ s ∈ (loadInitialSongs st now pages).songs, songInv s := by
    intro st now pages hst s hs
    rw [loadInitialSongs] at hs
    by_cases h1 : st.songs ≠ [] ∧ now - st.lastFetch < cacheDuration
    · rw [if_pos h1] at hs
      exact hst s hs
    · rw [if_neg h1] at hs
      by_cases h2 : fetchAllPages pages ≠ []
      · rw [if_pos h2] at hs
        exact fetchAllPages_inv pages s hs
      · rw [if_neg h2] at hs
        exact absurd hs (by simp)
  refine ⟨by simp [initialState], hload, ?_⟩
  intro st now pages hst s hs
  rw [getAllSongs, refreshSongsIfNeeded] at hs
  by_cases h1 : cacheDuration < now - st.lastFetch
  · rw [if_pos h1] at hs
    exact hload st now pages hst s hs
  · rw [if_neg h1] at hs
    exact hst s hs

/-- A raw NCS track that survives the filter, for the C10 witness. -/
def wTrack : NcsTrack :=
  { name := some "NT", download := some (some "du"), coverUrl := some "cu",
    previewUrl := some "pu" }

/-- C10 witness: the song built from a concrete surviving raw track is in
the refreshed pool and satisfies the invariant. -/
theorem memStorage_pool_url_invariant_witness :
    songInv (songFromTrack wTrack) :=
  memStorage_pool_url_invariant.2.1 initialState 0
    (fun _ => some [wTrack]) (by simp [initialState])
    (songFromTrack wTrack) (by decide)

/-! ## Claim C9: the GET /random handler -/

/-- The handler's pick loop draws one song per iteration until the pool
copy is exhausted. -/
lemma pickLoop_length (rand : Nat → ℚ) (hr : ∀ n, 0 ≤ rand n ∧ rand n < 1) :
    ∀ (k idx : Nat) (available : List Song),
      (pickLoop rand idx available k).length = min k available.length := by
  intro k
  induction k with
  | zero =>
    intro idx available
    simp [pickLoop]
  | succ n ih =>
    intro idx available
    by_cases h : available.length = 0
    · simp [pickLoop, h]
    · have hpos : 0 < available.length := by omega
      have hj : uniformIndex (rand idx) available.length < available.length :=
        uniformIndex_lt _ _ (hr idx).1 (hr idx).2 hpos
      have herase := List.length_eraseIdx_add_one hj
      simp only [pickLoop, if_neg h, List.length_cons]
      rw [ih]
      omega

/-- The one-song pool for the C9 concrete instantiations. -/
def cxSong9 : Song := ⟨"i", "t", "s", "d", "th", "1:00"⟩

/-- C9 (amended): the effective count is 1 when the parameter is absent,
unparsable, or parses to 0, is otherwise the parsed value capped above at
50 but **not** clamped below (a negative count yields an empty data
array, its `toNat` being 0); on a non-empty pool of `N` songs the
response data holds exactly `min((min(count,50)).toNat, N)` tracks, its
`count` field equals the data length, and `total_available` equals `N`. -/
theorem randomHandler_count_semantics (songs : List Song)
    (countParam : Option Int) (rand : Nat → ℚ) (hne : songs ≠ [])
    (hr : ∀ n, 0 ≤ rand n ∧ rand n < 1) :
    effectiveCount none = 1 ∧ effectiveCount (some 0) = 1 ∧
    (∀ v : Int, v ≠ 0 → effectiveCount (some v) = v) ∧
    ∃ p, randomHandler songs countParam rand = Except.ok p ∧
      p.data.length =
        min (min (effectiveCount countParam) 50).toNat songs.length ∧
      p.count = p.data.length ∧
      p.total_available = songs.length := by
  refine ⟨rfl, rfl, ?_, ?_⟩
  · intro v hv
    simp [effectiveCount, hv]
  · have hlen : ¬ songs.length = 0 := by
      simpa [List.length_eq_zero] using hne
    refine ⟨⟨pickLoop rand 0 songs (min (effectiveCount countParam) 50).toNat,
      (pickLoop rand 0 songs (min (effectiveCount countParam) 50).toNat).length,
      songs.length⟩, ?_, ?_, rfl, rfl⟩
    · simp [randomHandler, hlen]
    · exact pickLoop_length rand hr _ 0 songs

/-- C9 counterexample: the count is not clamped to the interval [1,50] —
with a one-song pool and `count = -5` the handler returns an empty data
array, while clamping below at 1 would require one track. -/
theorem randomHandler_negative_count_cx :
    ¬ (∀ (songs : List Song) (countParam : Option Int) (rand : Nat → ℚ),
        songs ≠ [] → (∀ n, 0 ≤ rand n ∧ rand n < 1) →
        ∃ p, randomHandler songs countParam rand = Except.ok p ∧
          p.data.length =
            min (max 1 (min (countParam.getD 1) 50)).toNat songs.length) := by
  intro h
  obtain ⟨p, hp, hlen⟩ := h [cxSong9] (some (-5)) (fun _ => 0) (by decide)
    (fun n => ⟨le_refl 0, zero_lt_one⟩)
  rw [show randomHandler [cxSong9] (some (-5)) (fun _ => 0) =
      Except.ok ⟨[], 0, 1⟩ from rfl] at hp
  rw [Except.ok.injEq] at hp
  rw [← hp] at hlen
  exact absurd hlen (by decide)

/-- C9 witness: a one-song pool with `count = 3` yields one track, with
`count` and `total_available` both 1. -/
theorem randomHandler_count_semantics_witness :
    ∃ p, randomHandler [cxSong9] (some 3) (fun _ => 0) = Except.ok p ∧
      p.data.length = 1 ∧ p.count = 1 ∧ p.total_available = 1 := by
  obtain ⟨-, -, -, p, hp, hlen, hcnt, htot⟩ :=
    randomHandler_count_semantics [cxSong9] (some 3) (fun _ => 0) (by decide)
      (fun n => ⟨le_refl 0, zero_lt_one⟩)
  refine ⟨p, hp, ?_, ?_, ?_⟩
  · rw [hlen]
    decide
  · rw [hcnt, hlen]
    decide
  · rw [htot]
    decide

end Abitech
